import Mathlib

/-!
Shallow embedding of the picture-frame controller's catalog-and-rotation core
(`custom_components/picture_frame/db_manager.py` and
`custom_components/picture_frame/media_scanner.py`).

SQLite tables are modelled as lists of rows in rowid order; the `next*Id`
fields model rowid allocation for `INTEGER PRIMARY KEY` columns.  The
`ORDER BY RANDOM() LIMIT 1` queries are modelled by an explicit choice
parameter selecting an index into the candidate rows, so properties can be
stated either for all choices or as the existence of a choice.
-/

namespace PF

/-- Row of the `albums` table
(`id INTEGER PRIMARY KEY, name, directory_path, source_path,
UNIQUE(name, source_path)`). -/
structure AlbumRow where
  id : Int
  name : String
  directory_path : String
  source_path : String
  deriving DecidableEq

/-- Row of the `images` table
(`id INTEGER PRIMARY KEY, filename, album_id, UNIQUE(filename, album_id)`). -/
structure ImageRow where
  id : Int
  filename : String
  album_id : Int
  deriving DecidableEq

/-- Row of the `displayed_images` table.  The `displayed_at` timestamp column
is write-only in the source (no query ever reads it), so it is not modelled. -/
structure DisplayedRow where
  id : Int
  image_id : Int
  deriving DecidableEq

/-- The database contents, each table in rowid order. -/
structure DB where
  albums : List AlbumRow
  images : List ImageRow
  displayed : List DisplayedRow
  nextAlbumId : Int
  nextImageId : Int
  nextDisplayedId : Int
  deriving DecidableEq

/-- A fresh database as `_init_db` creates it (first rowid is 1). -/
def db0 : DB := ⟨[], [], [], 1, 1, 1⟩

/-- Each query method starts with `if album_name:` — the filtered SQL variant
runs only when the Python argument is truthy (neither `None` nor `""`). -/
def truthyFilter : Option String → Option String
  | none => none
  | some s => if s = "" then none else some s

/-- Whether an album name passes the (truthiness-resolved) filter. -/
def matchesFilter (f : Option String) (n : String) : Bool :=
  match truthyFilter f with
  | none => true
  | some a => n == a

/-- `FROM images i JOIN albums a ON i.album_id = a.id` plus the optional
`WHERE a.name = ?`: images paired with their album row, in table order.
The join on `a.id` is modelled with `find?` because `id` is an
`INTEGER PRIMARY KEY` (uniqueness is engine-enforced). -/
def candidateImages (db : DB) (f : Option String) : List (ImageRow × AlbumRow) :=
  db.images.filterMap fun i =>
    match db.albums.find? (fun a => a.id == i.album_id) with
    | some a => if matchesFilter f a.name then some (i, a) else none
    | none => none

/-- `LEFT JOIN displayed_images d ON i.id = d.image_id` with `d.id IS NULL`
selecting the images that have no displayed mark. -/
def isDisplayed (db : DB) (i : ImageRow) : Bool :=
  db.displayed.any fun d => d.image_id == i.id

/-- The joined rows restricted to undisplayed images. -/
def undisplayedCandidates (db : DB) (f : Option String) : List (ImageRow × AlbumRow) :=
  (candidateImages db f).filter fun p => !(isDisplayed db p.1)

/-- `DatabaseManager.count_undisplayed_images`. -/
def count_undisplayed_images (db : DB) (f : Option String) : Nat :=
  (undisplayedCandidates db f).length

/-- `DatabaseManager.count_all_images`: with a truthy filter it counts the
join, without one it runs `SELECT COUNT(id) FROM images` (no join). -/
def count_all_images (db : DB) (f : Option String) : Nat :=
  match truthyFilter f with
  | none => db.images.length
  | some _ => (candidateImages db f).length

/-- The dict built from a selected row: `{id, path, album, source_path}`. -/
structure ImageRecord where
  id : Int
  path : String
  album : String
  source_path : String
  deriving DecidableEq

/-- `os.path.join(directory_path, filename)` for the path shapes occurring
here: `directory_path` is `""` or a relative path without trailing slash. -/
def osJoin (dir file : String) : String :=
  if dir = "" then file else dir ++ "/" ++ file

/-- Row-to-dict conversion shared by the query methods
(`relative_path = os.path.join(directory_path, filename)`). -/
def recOf (p : ImageRow × AlbumRow) : ImageRecord :=
  ⟨p.1.id, osJoin p.2.directory_path p.1.filename, p.2.name, p.2.source_path⟩

/-- The relative path a joined row reconstructs. -/
def relPathOf (p : ImageRow × AlbumRow) : String :=
  osJoin p.2.directory_path p.1.filename

/-- Default row pair for `List.getD`. -/
def dfltPair : ImageRow × AlbumRow := (⟨0, "", 0⟩, ⟨0, "", "", ""⟩)

/-- `DatabaseManager.get_random_undisplayed_image`: `ORDER BY RANDOM() LIMIT 1`
modelled by the `choice` index; `none` when no row matches. -/
def get_random_undisplayed_image (db : DB) (f : Option String) (choice : Nat) :
    Option ImageRecord :=
  let l := undisplayedCandidates db f
  (l[choice % l.length]?).map recOf

/-- `DatabaseManager.get_random_image`. -/
def get_random_image (db : DB) (f : Option String) (choice : Nat) :
    Option ImageRecord :=
  let l := candidateImages db f
  (l[choice % l.length]?).map recOf

/-- `DatabaseManager.mark_image_displayed`:
`INSERT OR REPLACE INTO displayed_images (image_id) VALUES (?)` — any row
conflicting on the UNIQUE `image_id` is deleted and the new row appended with
a fresh rowid.  The SQLite connection never enables `PRAGMA foreign_keys`,
so the declared `FOREIGN KEY (image_id) REFERENCES images (id)` is NOT
enforced: the insert succeeds for any `image_id` value. -/
def mark_image_displayed (db : DB) (image_id : Int) : Bool × DB :=
  (true,
   { db with
     displayed :=
       (db.displayed.filter fun d => !(d.image_id == image_id)) ++
         [⟨db.nextDisplayedId, image_id⟩],
     nextDisplayedId := db.nextDisplayedId + 1 })

/-- `DatabaseManager.clear_displayed_images`: `DELETE FROM displayed_images`. -/
def clear_displayed_images (db : DB) : DB :=
  { db with displayed := [] }

/-- `DatabaseManager.add_album` (happy path): SELECT the id of an existing row
with the same `(name, source_path)`, else INSERT and return the new rowid. -/
def add_album (db : DB) (album_name directory_path source_path : String) :
    Int × DB :=
  match db.albums.find?
      (fun a => a.name == album_name && a.source_path == source_path) with
  | some a => (a.id, db)
  | none =>
    (db.nextAlbumId,
     { db with
       albums :=
         db.albums ++ [⟨db.nextAlbumId, album_name, directory_path, source_path⟩],
       nextAlbumId := db.nextAlbumId + 1 })

/-- `DatabaseManager.add_image` (happy path), keyed on `(filename, album_id)`. -/
def add_image (db : DB) (filename : String) (album_id : Int) : Int × DB :=
  match db.images.find?
      (fun i => i.filename == filename && i.album_id == album_id) with
  | some i => (i.id, db)
  | none =>
    (db.nextImageId,
     { db with
       images := db.images ++ [⟨db.nextImageId, filename, album_id⟩],
       nextImageId := db.nextImageId + 1 })

/-- `DatabaseManager.get_all_albums`: `SELECT DISTINCT name FROM albums`. -/
def get_all_albums (db : DB) : List String :=
  (db.albums.map fun a => a.name).dedup

/-- The dict `get_next_image` returns and stores as `_current_image`. -/
structure ImageResult where
  path : String
  relative_path : String
  album : String
  source_path : String
  deriving DecidableEq

/-- The empty sentinel result. -/
def emptyResult : ImageResult := ⟨"", "", "", ""⟩

/-- Result built from a selected record:
`full_path = str(Path(selected["source_path"]) / selected["path"])`
(pathlib join, which coincides with `osJoin` for the path shapes here). -/
def mkResult (r : ImageRecord) : ImageResult :=
  ⟨osJoin r.source_path r.path, r.path, r.album, r.source_path⟩

/-- An entry yielded by `media_root.glob("**/*")`: its path components
relative to the root (last component is the base name) and `is_file()`. -/
structure FsEntry where
  comps : List String
  isFile : Bool
  deriving DecidableEq

/-- A configured media root: its path string, whether it `exists()`, and the
entries its recursive glob yields. -/
structure MediaRoot where
  path : String
  present : Bool
  files : List FsEntry
  deriving DecidableEq

/-- `MediaScanner` instance state. -/
structure Scanner where
  media_paths : List MediaRoot
  allowed_extensions : List String
  db : DB
  current_album : Option String
  current_image : Option ImageResult
  deriving DecidableEq

/-- Python truthiness of the optional `album` string argument. -/
def pyTruthy : Option String → Bool
  | none => false
  | some s => s != ""

/-- `if self._current_album is not None and not album: album = self._current_album`
(media_scanner.py line 103): the effective filter of a `get_next_image` call. -/
def effAlbum (cur a : Option String) : Option String :=
  if cur.isSome && !(pyTruthy a) then cur else a

/-- `MediaScanner.get_next_image`. -/
def get_next_image (s : Scanner) (album0 : Option String) (choice : Nat) :
    ImageResult × Scanner :=
  let album := effAlbum s.current_album album0
  let cnt0 := count_undisplayed_images s.db album
  let db1 := if cnt0 = 0 then clear_displayed_images s.db else s.db
  let cnt1 := if cnt0 = 0 then count_all_images db1 album else cnt0
  if cnt1 = 0 then
    (emptyResult, { s with db := db1, current_image := some emptyResult })
  else
    let selected :=
      if 0 < count_undisplayed_images db1 album then
        get_random_undisplayed_image db1 album choice
      else
        get_random_image db1 album choice
    match selected with
    | some r =>
      let db2 := (mark_image_displayed db1 r.id).2
      let res := mkResult r
      (res, { s with db := db2, current_image := some res })
    | none =>
      (emptyResult, { s with db := db1, current_image := some emptyResult })

/-- Python `"/" in album_name` (substring test for the one-character
separator, i.e. a character occurrence test). -/
def containsSlash (n : String) : Bool :=
  n.toList.contains '/'

/-- Python `album_name.split("/")`: split on every separator occurrence,
keeping empty pieces (`"".split("/") = [""]`, `"a/".split("/") = ["a", ""]`). -/
def splitSlash (n : String) : List String :=
  (n.toList.foldr
    (fun ch acc =>
      if ch = '/' then [] :: acc
      else (ch :: acc.headD []) :: acc.tail)
    [[]]).map String.mk

/-- `album_name.split("/")[-1]`. -/
def lastSegment (n : String) : String :=
  (splitSlash n).getLastD n

/-- The base name `set_album` validates and stores: the last path segment for
path-style names, the name itself otherwise. -/
def reducedName (n : String) : String :=
  if containsSlash n then lastSegment n else n

/-- `MediaScanner.set_album`. -/
def set_album (s : Scanner) (album_name : Option String) : Bool × Scanner :=
  match album_name with
  | none => (true, { s with current_album := none })
  | some n =>
    if n = "" then (true, { s with current_album := none })
    else
      let base := if containsSlash n then lastSegment n else n
      if base ∉ get_all_albums s.db then (false, s)
      else (true, { s with current_album := some base })

/-- Consecutive `get_next_image` calls with a fixed album argument, threading
the scanner state and collecting the results. -/
def runCalls (s : Scanner) (album0 : Option String) :
    List Nat → List ImageResult × Scanner
  | [] => ([], s)
  | c :: cs =>
    let r := get_next_image s album0 c
    let rest := runCalls r.2 album0 cs
    (r.1 :: rest.1, rest.2)

/-- `Path.suffix` of a base name (pathlib semantics: the part from the last
dot, unless that dot is the first or the last character of the name). -/
def pathSuffix (nm : String) : String :=
  let cs := nm.toList
  let n := cs.length
  match ((List.range n).filter fun i => cs.getD i '/' == '.').getLast? with
  | some i => if 0 < i ∧ i < n - 1 then String.mk (cs.drop i) else ""
  | none => ""

/-- `str.lower()` restricted to what the extension check needs
(character-wise lower-casing). -/
def lowerStr (s : String) : String :=
  String.mk (s.toList.map Char.toLower)

/-- `img_path.is_file() and img_path.suffix.lower() in self.allowed_extensions`. -/
def acceptsFile (e : FsEntry) (exts : List String) : Bool :=
  e.isFile && exts.contains (lowerStr (pathSuffix (e.comps.getLastD "")))

/-- `Path(p).name` for a path without trailing slash. -/
def baseName (p : String) : String :=
  (splitSlash p).getLastD p

/-- The album name the scan loop computes for one file:
`album_name = img_path.parent.name`, then overridden to `"Root"` when
`img_path.parent == media_root` (for a file directly under the root the first
assignment yields the root directory's own base name, which the override
always replaces). -/
def srcAlbumName (rootPath : String) (comps : List String) : String :=
  let parent := comps.dropLast
  let album_name := if parent.isEmpty then baseName rootPath else parent.getLastD ""
  if parent.isEmpty then "Root" else album_name

/-- The directory path the scan loop computes for one file:
`dir_path = str(img_path.parent.relative_to(media_root))`, with `"."`
(the root itself) replaced by `""`. -/
def srcDirPath (comps : List String) : String :=
  let parent := comps.dropLast
  let dir_path := if parent.isEmpty then "." else String.intercalate "/" parent
  if dir_path = "." then "" else dir_path

/-- The loop body of `MediaScanner.scan_media` for one accepted file (the
in-memory `albums` dict it also builds is purely informational and returned
to the caller; only the database effects are modelled):
`add_album(album_name, dir_path, source_path)` followed, when the returned id
is not the `-1` sentinel, by `add_image(filename, album_id)`. -/
def processFile (db : DB) (rootPath : String) (comps : List String) : DB :=
  let r := add_album db (srcAlbumName rootPath comps) (srcDirPath comps) rootPath
  if 0 ≤ r.1 then (add_image r.2 (comps.getLastD "") r.1).2 else r.2

/-- One glob entry of `scan_media`: process it when `is_file()` and the
lower-cased suffix is allowed. -/
def scanEntry (exts : List String) (rootPath : String) (db : DB) (e : FsEntry) : DB :=
  if acceptsFile e exts then processFile db rootPath e.comps else db

/-- One configured media root of `scan_media`: skipped when it does not exist. -/
def scanRoot (exts : List String) (db : DB) (r : MediaRoot) : DB :=
  if r.present then r.files.foldl (scanEntry exts r.path) db else db

/-- `MediaScanner.scan_media` (database effects; the returned in-memory album
map is informational and not modelled). -/
def scan_media (s : Scanner) : Scanner :=
  { s with db := s.media_paths.foldl (scanRoot s.allowed_extensions) s.db }

/-! ### Exception semantics of the Catalog Store boundary (for C8)

Every `DatabaseManager` method shares the shape

```
try:
    conn = self._get_connection()
    ...
except sqlite3.Error as e:
    ...
    return <no-op value>
finally:
    if conn:
        conn.close()
```

where `_get_connection` runs `os.makedirs(os.path.dirname(self.db_path),
exist_ok=True)` (which can raise `OSError`) and `sqlite3.connect` (which can
raise `sqlite3.Error`).  When either raises, the local `conn` is never
assigned, and the `finally` clause's `if conn:` itself raises
`UnboundLocalError`, which by Python semantics replaces whatever value or
exception the operation was about to produce. -/

/-- Python exception classes relevant to `db_manager`. -/
inductive PyExc where
  /-- `sqlite3.Error` (e.g. `sqlite3.OperationalError`). -/
  | sqliteError
  /-- `OSError` (e.g. `FileNotFoundError` from `os.makedirs`). -/
  | osError
  /-- `UnboundLocalError` (`conn` referenced before assignment). -/
  | unboundLocal
  deriving DecidableEq

/-- Outcome of running a Python callable: a returned value or a propagated
exception. -/
inductive PyOutcome (α : Type) where
  | ret : α → PyOutcome α
  | exc : PyExc → PyOutcome α
  deriving DecidableEq

/-- How the storage engine behaves during one operation. -/
inductive ConnBehavior where
  /-- connection obtained, queries succeed -/
  | ok
  /-- `sqlite3.connect` raises `sqlite3.Error`; `conn` stays unbound -/
  | connectFails
  /-- `os.makedirs` raises `OSError`; `conn` stays unbound -/
  | makedirsFails
  /-- connection obtained, a later query raises `sqlite3.Error` -/
  | queryFails
  deriving DecidableEq

/-- `DatabaseManager.add_album` together with its `try/except/finally`
boundary, under a given engine behavior. -/
def add_album_run (db : DB) (album_name directory_path source_path : String)
    (b : ConnBehavior) : PyOutcome (Int × DB) :=
  -- the `try` body: its outcome, and whether `conn` got bound
  let body : PyOutcome (Int × DB) × Bool :=
    match b with
    | .ok => (.ret (add_album db album_name directory_path source_path), true)
    | .connectFails => (.exc .sqliteError, false)
    | .makedirsFails => (.exc .osError, false)
    | .queryFails => (.exc .sqliteError, true)
  -- `except sqlite3.Error as e: _LOGGER.error(...); return -1`
  let pending : PyOutcome (Int × DB) :=
    match body.1 with
    | .ret v => .ret v
    | .exc .sqliteError => .ret (-1, db)
    | .exc e => .exc e
  -- `finally: if conn: conn.close()` — raises when `conn` is unbound
  if body.2 then pending else .exc .unboundLocal

/-! ### Derived helpers used in statements -/

/-- The row a nonempty-pool `get_next_image` call selects (the undisplayed
candidate at the choice index). -/
def chosenOf (s : Scanner) (a0 : Option String) (c : Nat) : ImageRow × AlbumRow :=
  let l := undisplayedCandidates s.db (effAlbum s.current_album a0)
  l.getD (c % l.length) dfltPair

/-- The row an exhausted-pool `get_next_image` call selects after the reset
(the full candidate pool at the choice index). -/
def poolChosen (s : Scanner) (a0 : Option String) (c : Nat) : ImageRow × AlbumRow :=
  let l := candidateImages s.db (effAlbum s.current_album a0)
  l.getD (c % l.length) dfltPair

/-- Spec-side (claim C6 wording): the album name asserted for a scanned file —
the immediate parent directory's base name, or the sentinel `"Root"` when the
parent is the configured root itself. -/
def claimAlbumName (comps : List String) : String :=
  if comps.dropLast = [] then "Root" else comps.dropLast.getLastD ""

/-- Spec-side (claim C6 wording): the directory path asserted for a scanned
file — the parent directory's path relative to the root, `""` at the root. -/
def claimDirPath (comps : List String) : String :=
  if comps.dropLast = [] then "" else String.intercalate "/" comps.dropLast

/-- Album/image ids in a database state are non-negative (SQLite rowids are
positive; engine-enforced for every reachable state). -/
def dbIdsOk (db : DB) : Prop :=
  0 ≤ db.nextAlbumId ∧ ∀ a ∈ db.albums, 0 ≤ a.id

/-- Row containment between database states (scan steps only append rows). -/
def dbLe (db db' : DB) : Prop :=
  (∀ a ∈ db.albums, a ∈ db'.albums) ∧ (∀ i ∈ db.images, i ∈ db'.images)

/-! ### Concrete states used by counterexamples and witnesses -/

/-- C1 counterexample state: two roots each holding `A/img.jpg`, so two
distinct undisplayed images share the relative path `"A/img.jpg"`. -/
def dbC1x : DB :=
  ⟨[⟨1, "A", "A", "R1"⟩, ⟨2, "A", "A", "R2"⟩],
   [⟨1, "img.jpg", 1⟩, ⟨2, "img.jpg", 2⟩], [], 3, 3, 1⟩

/-- Scanner over `dbC1x`, no album filter set. -/
def sC1x : Scanner := ⟨[], [".jpg"], dbC1x, none, none⟩

/-- C1 witness state: one album with two images with distinct paths. -/
def dbC1w : DB :=
  ⟨[⟨1, "A", "A", "R"⟩], [⟨1, "i1.jpg", 1⟩, ⟨2, "i2.jpg", 1⟩], [], 2, 3, 1⟩

/-- Scanner over `dbC1w`. -/
def sC1w : Scanner := ⟨[], [".jpg"], dbC1w, none, none⟩

/-- C2 witness state: a single image, already displayed (pool exhausted). -/
def dbC2w : DB := ⟨[⟨1, "A", "A", "R"⟩], [⟨1, "i1.jpg", 1⟩], [⟨1, 1⟩], 2, 2, 2⟩

/-- Scanner over `dbC2w`. -/
def sC2w : Scanner := ⟨[], [".jpg"], dbC2w, none, none⟩

/-- C3 state: stored current album `"A"`; albums `A` and `B` each hold one
undisplayed image. -/
def dbC3x : DB :=
  ⟨[⟨1, "A", "A", "R"⟩, ⟨2, "B", "B", "R"⟩],
   [⟨1, "a1.jpg", 1⟩, ⟨2, "b1.jpg", 2⟩], [], 3, 3, 1⟩

/-- Scanner over `dbC3x` with `_current_album = "A"`. -/
def sC3x : Scanner := ⟨[], [".jpg"], dbC3x, some "A", none⟩

/-- C3 witness scanner (same catalog, stored album `"A"`). -/
def sC3w : Scanner := ⟨[], [".jpg"], dbC3x, some "A", none⟩

/-- C4 witness state: one album named `"A"`. -/
def dbC4w : DB := ⟨[⟨1, "A", "A", "R"⟩], [⟨1, "i1.jpg", 1⟩], [], 2, 2, 1⟩

/-- Scanner over `dbC4w`. -/
def sC4w : Scanner := ⟨[], [".jpg"], dbC4w, none, none⟩

/-- C5 state: one album named `"child"` (found under `parent/child`) holding
one undisplayed image. -/
def dbC5x : DB := ⟨[⟨1, "child", "parent/child", "R"⟩], [⟨1, "f1.jpg", 1⟩], [], 2, 2, 1⟩

/-- Scanner over `dbC5x`. -/
def sC5x : Scanner := ⟨[], [".jpg"], dbC5x, none, none⟩

/-- C5 witness scanner (same catalog). -/
def sC5w : Scanner := ⟨[], [".jpg"], dbC5x, none, none⟩

/-- C6 counterexample scanner: one root `"R"` containing `x/A/f1.jpg` and
`y/A/f2.jpg` — two different directories with the same base name `A`. -/
def sC6x : Scanner :=
  ⟨[⟨"R", true, [⟨["x", "A", "f1.jpg"], true⟩, ⟨["y", "A", "f2.jpg"], true⟩]⟩],
   [".jpg"], db0, none, none⟩

/-- C6 witness scanner: one root `"R"` with `B/pic.jpg` and a root-level
`top.jpg`. -/
def sC6w : Scanner :=
  ⟨[⟨"R", true, [⟨["B", "pic.jpg"], true⟩, ⟨["top.jpg"], true⟩]⟩],
   [".jpg"], db0, none, none⟩

/-- C9 state: one image with an existing displayed mark. -/
def dbC9 : DB := ⟨[⟨1, "A", "A", "R"⟩], [⟨1, "i1.jpg", 1⟩], [⟨1, 1⟩], 2, 2, 2⟩

/-! ## Lemmas and claim theorems -/

theorem candidateImages_clear (db : DB) (f : Option String) :
    candidateImages (clear_displayed_images db) f = candidateImages db f := rfl

theorem candidateImages_mark (db : DB) (j : Int) (f : Option String) :
    candidateImages (mark_image_displayed db j).2 f = candidateImages db f := rfl

theorem isDisplayed_clear (db : DB) (i : ImageRow) :
    isDisplayed (clear_displayed_images db) i = false := rfl

theorem undisplayedCandidates_clear (db : DB) (f : Option String) :
    undisplayedCandidates (clear_displayed_images db) f = candidateImages db f := by
  simp [undisplayedCandidates, isDisplayed_clear, candidateImages_clear]

theorem isDisplayed_mark (db : DB) (j : Int) (i : ImageRow) :
    isDisplayed (mark_image_displayed db j).2 i = (i.id == j || isDisplayed db i) := by
  by_cases h : i.id = j
  · subst h
    simp [isDisplayed, mark_image_displayed]
  · have h1 : (i.id == j) = false := by simp [h]
    simp only [isDisplayed, mark_image_displayed, List.any_append, List.any_filter, h1,
      Bool.false_or]
    rw [Bool.eq_iff_iff]
    simp only [Bool.or_eq_true, List.any_eq_true, Bool.and_eq_true, Bool.not_eq_true',
      beq_iff_eq, beq_eq_false_iff_ne]
    constructor
    · rintro (⟨d, hd, _, he⟩ | ⟨x, hx, he⟩)
      · exact ⟨d, hd, he⟩
      · rw [List.mem_singleton] at hx
        exact absurd (hx ▸ he).symm h
    · rintro ⟨d, hd, he⟩
      exact Or.inl ⟨d, hd, by rw [he]; exact h, he⟩

theorem undisplayedCandidates_mark (db : DB) (j : Int) (f : Option String) :
    undisplayedCandidates (mark_image_displayed db j).2 f
      = (undisplayedCandidates db f).filter fun p => !(p.1.id == j) := by
  unfold undisplayedCandidates
  rw [candidateImages_mark, List.filter_filter]
  apply List.filter_congr
  intro p _
  rw [isDisplayed_mark, Bool.not_or]

theorem recOf_id (p : ImageRow × AlbumRow) : (recOf p).id = p.1.id := rfl

theorem recOf_path (p : ImageRow × AlbumRow) : (recOf p).path = relPathOf p := rfl

theorem mkResult_rel (r : ImageRecord) : (mkResult r).relative_path = r.path := rfl

theorem get_random_undisplayed_some (db : DB) (f : Option String) (c : Nat)
    (h : undisplayedCandidates db f ≠ []) :
    get_random_undisplayed_image db f c =
      some (recOf ((undisplayedCandidates db f).getD
        (c % (undisplayedCandidates db f).length) dfltPair)) := by
  have hlt : c % (undisplayedCandidates db f).length < (undisplayedCandidates db f).length :=
    Nat.mod_lt _ (List.length_pos.mpr h)
  simp [get_random_undisplayed_image, List.getElem?_eq_getElem hlt]

theorem get_random_image_some (db : DB) (f : Option String) (c : Nat)
    (h : candidateImages db f ≠ []) :
    get_random_image db f c =
      some (recOf ((candidateImages db f).getD
        (c % (candidateImages db f).length) dfltPair)) := by
  have hlt : c % (candidateImages db f).length < (candidateImages db f).length :=
    Nat.mod_lt _ (List.length_pos.mpr h)
  simp [get_random_image, List.getElem?_eq_getElem hlt]

theorem get_next_image_busy (s : Scanner) (a0 : Option String) (c : Nat)
    (h : undisplayedCandidates s.db (effAlbum s.current_album a0) ≠ []) :
    get_next_image s a0 c =
      (mkResult (recOf (chosenOf s a0 c)),
       { s with
         db := (mark_image_displayed s.db (chosenOf s a0 c).1.id).2,
         current_image := some (mkResult (recOf (chosenOf s a0 c))) }) := by
  have hne : count_undisplayed_images s.db (effAlbum s.current_album a0) ≠ 0 := by
    simpa [count_undisplayed_images, List.length_eq_zero] using h
  have hpos : 0 < count_undisplayed_images s.db (effAlbum s.current_album a0) :=
    Nat.pos_of_ne_zero hne
  simp only [get_next_image, if_neg hne, if_pos hpos,
    get_random_undisplayed_some _ _ _ h, chosenOf, recOf_id]

theorem count_all_pos_of_pool (db : DB) (f : Option String)
    (h : candidateImages db f ≠ []) : count_all_images db f ≠ 0 := by
  have hpos : 0 < (candidateImages db f).length := List.length_pos.mpr h
  have hlen : (candidateImages db f).length ≤ db.images.length := by
    unfold candidateImages
    exact List.length_filterMap_le _ _
  cases ht : truthyFilter f with
  | none =>
    have he : count_all_images db f = db.images.length := by
      simp [count_all_images, ht]
    rw [he]; omega
  | some a =>
    have he : count_all_images db f = (candidateImages db f).length := by
      simp [count_all_images, ht]
    rw [he]; omega

theorem get_next_image_exhausted (s : Scanner) (a0 : Option String) (c : Nat)
    (h0 : undisplayedCandidates s.db (effAlbum s.current_album a0) = [])
    (hp : candidateImages s.db (effAlbum s.current_album a0) ≠ []) :
    get_next_image s a0 c =
      (mkResult (recOf (poolChosen s a0 c)),
       { s with
         db := (mark_image_displayed (clear_displayed_images s.db)
                 (poolChosen s a0 c).1.id).2,
         current_image := some (mkResult (recOf (poolChosen s a0 c))) }) := by
  have h0' : count_undisplayed_images s.db (effAlbum s.current_album a0) = 0 := by
    simp [count_undisplayed_images, h0]
  have hclear : undisplayedCandidates (clear_displayed_images s.db)
      (effAlbum s.current_album a0) = candidateImages s.db (effAlbum s.current_album a0) :=
    undisplayedCandidates_clear _ _
  have hcnt1 : count_all_images (clear_displayed_images s.db)
      (effAlbum s.current_album a0) ≠ 0 := by
    have : candidateImages (clear_displayed_images s.db) (effAlbum s.current_album a0) ≠ [] := by
      rw [candidateImages_clear]; exact hp
    exact count_all_pos_of_pool _ _ this
  have hpos2 : 0 < count_undisplayed_images (clear_displayed_images s.db)
      (effAlbum s.current_album a0) := by
    rw [count_undisplayed_images, hclear]
    exact List.length_pos.mpr hp
  have hsel : get_random_undisplayed_image (clear_displayed_images s.db)
      (effAlbum s.current_album a0) c = some (recOf (poolChosen s a0 c)) := by
    rw [get_random_undisplayed_some _ _ _ (by rw [hclear]; exact hp)]
    simp [hclear, poolChosen]
  simp only [get_next_image, h0', if_pos rfl, if_true, hcnt1, if_false,
    if_pos hpos2, hsel, recOf_id]

theorem length_filter_ne_of_nodup {α : Type} (f : α → Int) :
    ∀ (l : List α) (x : α), x ∈ l → (l.map f).Nodup →
      (l.filter fun y => !(f y == f x)).length + 1 = l.length := by
  intro l
  induction l with
  | nil => intro x hx _; cases hx
  | cons a t ih =>
    intro x hx hnd
    rw [List.map_cons, List.nodup_cons] at hnd
    rcases List.mem_cons.mp hx with h | h
    · subst h
      have hpa : ¬ ((fun y => !(f y == f x)) x = true) := by simp
      rw [List.filter_cons_of_neg (p := fun y => !(f y == f x)) hpa]
      have ht : t.filter (fun y => !(f y == f x)) = t := by
        rw [List.filter_eq_self]
        intro y hy
        simp only [Bool.not_eq_true', beq_eq_false_iff_ne]
        intro e
        exact hnd.1 (e ▸ List.mem_map_of_mem f hy)
      rw [ht, List.length_cons]
    · have hne : f a ≠ f x := fun e => hnd.1 (e ▸ List.mem_map_of_mem f h)
      have hpa : (fun y => !(f y == f x)) a = true := by simp [hne]
      rw [List.filter_cons_of_pos (p := fun y => !(f y == f x)) hpa]
      have := ih x h hnd.2
      simp only [List.length_cons]
      omega

theorem filterMap_fst_sublist {α β : Type} (g : α → Option (α × β))
    (hg : ∀ a p, g a = some p → p.1 = a) : ∀ l : List α,
    List.Sublist ((l.filterMap g).map Prod.fst) l := by
  intro l
  induction l with
  | nil => simp
  | cons a t ih =>
    cases hga : g a with
    | none =>
      simp only [List.filterMap_cons, hga]
      exact ih.cons a
    | some p =>
      simp only [List.filterMap_cons, hga, List.map_cons, hg a p hga]
      exact ih.cons₂ a

theorem candidate_fst_sublist (db : DB) (f : Option String) :
    List.Sublist ((candidateImages db f).map Prod.fst) db.images := by
  unfold candidateImages
  apply filterMap_fst_sublist
  intro a p hp
  split at hp
  · split at hp
    · exact (Option.some_inj.mp hp) ▸ rfl
    · cases hp
  · cases hp

theorem undisplayed_ids_nodup (db : DB) (f : Option String)
    (h : (db.images.map fun i => i.id).Nodup) :
    ((undisplayedCandidates db f).map fun p => p.1.id).Nodup := by
  have hsub : List.Sublist ((undisplayedCandidates db f).map Prod.fst) db.images := by
    have h2 : List.Sublist ((undisplayedCandidates db f).map Prod.fst) ((candidateImages db f).map Prod.fst) :=
      (List.filter_sublist _).map Prod.fst
    exact h2.trans (candidate_fst_sublist db f)
  have he : ((undisplayedCandidates db f).map fun p => p.1.id)
      = ((undisplayedCandidates db f).map Prod.fst).map (fun i => i.id) := by
    rw [List.map_map]; rfl
  rw [he]
  exact List.Nodup.sublist (hsub.map _) h

theorem runCalls_cons_fst (s : Scanner) (a0 : Option String) (c : Nat) (cs : List Nat) :
    (runCalls s a0 (c :: cs)).1
      = (get_next_image s a0 c).1 :: (runCalls (get_next_image s a0 c).2 a0 cs).1 := rfl

theorem length_filter_ne_id (U : List (ImageRow × AlbumRow)) (u : ImageRow × AlbumRow)
    (humem : u ∈ U) (hids : (U.map fun p => p.1.id).Nodup) :
    (U.filter fun p => !(p.1.id == u.1.id)).length + 1 = U.length :=
  length_filter_ne_of_nodup (fun p => p.1.id) U u humem hids

theorem runCalls_paths_aux (a0 : Option String) :
    ∀ (cs : List Nat) (s : Scanner),
      ((undisplayedCandidates s.db (effAlbum s.current_album a0)).map fun p => p.1.id).Nodup →
      ((undisplayedCandidates s.db (effAlbum s.current_album a0)).map relPathOf).Nodup →
      cs.length ≤ (undisplayedCandidates s.db (effAlbum s.current_album a0)).length →
      ((runCalls s a0 cs).1.map fun r => r.relative_path).Nodup ∧
      ∀ r ∈ (runCalls s a0 cs).1,
        ∃ p ∈ undisplayedCandidates s.db (effAlbum s.current_album a0),
          r.relative_path = relPathOf p := by
  intro cs
  induction cs with
  | nil =>
    intro s _ _ _
    constructor
    · simp [runCalls]
    · intro r hr
      simp [runCalls] at hr
  | cons c rest ih =>
    intro s hids hpaths hlen
    have hne : undisplayedCandidates s.db (effAlbum s.current_album a0) ≠ [] := by
      intro he
      rw [he] at hlen
      simp at hlen
    have humem : chosenOf s a0 c ∈ undisplayedCandidates s.db (effAlbum s.current_album a0) := by
      have hlt : c % (undisplayedCandidates s.db (effAlbum s.current_album a0)).length
          < (undisplayedCandidates s.db (effAlbum s.current_album a0)).length :=
        Nat.mod_lt _ (List.length_pos.mpr hne)
      unfold chosenOf
      rw [List.getD_eq_getElem?_getD, List.getElem?_eq_getElem hlt, Option.getD_some]
      exact List.getElem_mem hlt
    have hstep := get_next_image_busy s a0 c hne
    have hU' : undisplayedCandidates (get_next_image s a0 c).2.db
          (effAlbum (get_next_image s a0 c).2.current_album a0)
        = (undisplayedCandidates s.db (effAlbum s.current_album a0)).filter
            fun p => !(p.1.id == (chosenOf s a0 c).1.id) := by
      rw [hstep]
      exact undisplayedCandidates_mark s.db (chosenOf s a0 c).1.id _
    have hcount := length_filter_ne_id (undisplayedCandidates s.db (effAlbum s.current_album a0))
      (chosenOf s a0 c) humem hids
    have hids' : ((undisplayedCandidates (get_next_image s a0 c).2.db
        (effAlbum (get_next_image s a0 c).2.current_album a0)).map fun p => p.1.id).Nodup := by
      rw [hU']
      exact List.Nodup.sublist ((List.filter_sublist _).map _) hids
    have hpaths' : ((undisplayedCandidates (get_next_image s a0 c).2.db
        (effAlbum (get_next_image s a0 c).2.current_album a0)).map relPathOf).Nodup := by
      rw [hU']
      exact List.Nodup.sublist ((List.filter_sublist _).map _) hpaths
    have hlen' : rest.length ≤ (undisplayedCandidates (get_next_image s a0 c).2.db
        (effAlbum (get_next_image s a0 c).2.current_album a0)).length := by
      rw [hU']
      simp only [List.length_cons] at hlen
      omega
    obtain ⟨ihn, ihm⟩ := ih (get_next_image s a0 c).2 hids' hpaths' hlen'
    have hfst : (get_next_image s a0 c).1.relative_path = relPathOf (chosenOf s a0 c) := by
      rw [hstep]
      rfl
    constructor
    · rw [runCalls_cons_fst, List.map_cons, hfst]
      refine List.nodup_cons.mpr ⟨?_, ihn⟩
      intro hmem
      obtain ⟨r, hr, hre⟩ := List.mem_map.mp hmem
      obtain ⟨p, hp, hrp⟩ := ihm r hr
      rw [hU'] at hp
      have hpU := List.mem_of_mem_filter hp
      have hpe : relPathOf p = relPathOf (chosenOf s a0 c) := by rw [← hrp, hre]
      have hpu : p = chosenOf s a0 c :=
        List.inj_on_of_nodup_map hpaths hpU humem hpe
      have hpred := List.of_mem_filter hp
      rw [hpu] at hpred
      simp at hpred
    · intro r hr
      rw [runCalls_cons_fst] at hr
      rcases List.mem_cons.mp hr with h | h
      · exact ⟨chosenOf s a0 c, humem, by rw [h, hfst]⟩
      · obtain ⟨p, hp, hrp⟩ := ihm r h
        rw [hU'] at hp
        exact ⟨p, List.mem_of_mem_filter hp, hrp⟩

/-- Claim C1, counterexample to the claim as stated: in `sC1x` exactly two
images are undisplayed under the empty filter, yet two consecutive
`get_next_image` calls (choices 0, 0) return the SAME relative path
`"A/img.jpg"` — the two images live under different source roots and
reconstruct identical relative paths, so the returned paths are not
pairwise distinct. -/
theorem c1_counterexample :
    count_undisplayed_images sC1x.db (effAlbum sC1x.current_album none) = 2 ∧
    ((runCalls sC1x none [0, 0]).1.map fun r => r.relative_path)
      = ["A/img.jpg", "A/img.jpg"] ∧
    ¬ (((runCalls sC1x none [0, 0]).1.map fun r => r.relative_path).Nodup) := by
  refine ⟨by decide, by decide, by decide⟩

/-- Claim C1 (amended): for a fixed album argument, with N images currently
undisplayed under the effective filter (N = `cs.length` ≥ 1), N consecutive
`get_next_image` calls return pairwise-distinct relative paths, PROVIDED the
undisplayed pool's rows reconstruct pairwise-distinct relative paths (image
ids are unique as the primary key guarantees).  Without the
path-injectivity proviso the claim fails (`c1_counterexample`): the calls
select pairwise-distinct images, but images under different roots may share
a relative path. -/
theorem c1_no_repeat (s : Scanner) (a0 : Option String) (cs : List Nat)
    (hids : (s.db.images.map fun i => i.id).Nodup)
    (hpaths : ((undisplayedCandidates s.db (effAlbum s.current_album a0)).map relPathOf).Nodup)
    (hlen : cs.length = count_undisplayed_images s.db (effAlbum s.current_album a0))
    (_hpos : 1 ≤ count_undisplayed_images s.db (effAlbum s.current_album a0)) :
    ((runCalls s a0 cs).1.map fun r => r.relative_path).Nodup :=
  (runCalls_paths_aux a0 cs s (undisplayed_ids_nodup s.db _ hids) hpaths
    (le_of_eq hlen)).1

/-- Claim C1 witness: the amended theorem applied to a concrete two-image
catalog. -/
theorem c1_witness :
    (sC1w.db.images.map fun i => i.id).Nodup ∧
    ((undisplayedCandidates sC1w.db (effAlbum sC1w.current_album none)).map relPathOf).Nodup ∧
    ([0, 0] : List Nat).length = count_undisplayed_images sC1w.db (effAlbum sC1w.current_album none) ∧
    ((runCalls sC1w none [0, 0]).1.map fun r => r.relative_path).Nodup :=
  ⟨by decide, by decide, by decide,
   c1_no_repeat sC1w none [0, 0] (by decide) (by decide) (by decide) (by decide)⟩

/-- Claim C2: when the undisplayed count for the effective filter is zero and
the catalog has images matching the filter, `get_next_image` deletes every
displayed mark in the catalog (afterwards the only mark is the one for the
image selected in that same call, regardless of which marks existed before,
including marks outside the filter) and draws from all images matching the
filter; every pool image can be returned by some random choice, including
ones already returned in the previous cycle. -/
theorem c2_reset_on_exhaustion (s : Scanner) (a0 : Option String)
    (hexh : count_undisplayed_images s.db (effAlbum s.current_album a0) = 0)
    (hpool : candidateImages s.db (effAlbum s.current_album a0) ≠ []) :
    (∀ c : Nat,
       (get_next_image s a0 c).1 = mkResult (recOf (poolChosen s a0 c)) ∧
       ((get_next_image s a0 c).2.db.displayed.map fun d => d.image_id)
         = [(poolChosen s a0 c).1.id]) ∧
    (∀ p ∈ candidateImages s.db (effAlbum s.current_album a0),
       ∃ c : Nat, (get_next_image s a0 c).1 = mkResult (recOf p)) := by
  have h0 : undisplayedCandidates s.db (effAlbum s.current_album a0) = [] := by
    rwa [count_undisplayed_images, List.length_eq_zero] at hexh
  constructor
  · intro c
    have hstep := get_next_image_exhausted s a0 c h0 hpool
    constructor
    · rw [hstep]
    · rw [hstep]
      rfl
  · intro p hp
    obtain ⟨i, hi, hie⟩ := List.getElem_of_mem hp
    refine ⟨i, ?_⟩
    have hstep := get_next_image_exhausted s a0 i h0 hpool
    rw [hstep]
    have hch : poolChosen s a0 i = p := by
      show (candidateImages s.db (effAlbum s.current_album a0)).getD
        (i % (candidateImages s.db (effAlbum s.current_album a0)).length) dfltPair = p
      rw [Nat.mod_eq_of_lt hi, List.getD_eq_getElem?_getD, List.getElem?_eq_getElem hi,
        Option.getD_some, hie]
    rw [hch]

/-- Claim C2 witness: the theorem applied to a concrete exhausted one-image
catalog. -/
theorem c2_witness :
    count_undisplayed_images sC2w.db (effAlbum sC2w.current_album none) = 0 ∧
    candidateImages sC2w.db (effAlbum sC2w.current_album none) ≠ [] ∧
    (get_next_image sC2w none 0).1 = mkResult (recOf (poolChosen sC2w none 0)) :=
  ⟨by decide, by decide,
   ((c2_reset_on_exhaustion sC2w none (by decide) (by decide)).1 0).1⟩

/-- Claim C10: `get_next_image` — with or without an album argument, for
every argument value and random choice — leaves the stored `currentAlbum`
unchanged, and `scan_media` does too; among the state-mutating operations
only `set_album` writes `currentAlbum`. -/
theorem c10_current_album_frame :
    (∀ (s : Scanner) (a0 : Option String) (c : Nat),
       (get_next_image s a0 c).2.current_album = s.current_album) ∧
    (∀ s : Scanner, (scan_media s).current_album = s.current_album) := by
  constructor
  · intro s a0 c
    simp only [get_next_image]
    repeat' split
    all_goals rfl
  · intro s
    rfl

theorem gni_current_album (s : Scanner) (a0 : Option String) (c : Nat) :
    (get_next_image s a0 c).2.current_album = s.current_album := by
  simp only [get_next_image]
  repeat' split
  all_goals rfl

theorem matchesFilter_empty (n : String) : matchesFilter (some "") n = true := by
  simp [matchesFilter, truthyFilter]

theorem candidateImages_empty (db : DB) :
    candidateImages db (some "") = candidateImages db none := by
  unfold candidateImages
  have he : (fun i : ImageRow =>
      match db.albums.find? (fun a => a.id == i.album_id) with
      | some a => if matchesFilter (some "") a.name then some (i, a) else none
      | none => none)
      = (fun i : ImageRow =>
      match db.albums.find? (fun a => a.id == i.album_id) with
      | some a => if matchesFilter none a.name then some (i, a) else none
      | none => none) := by
    have ht : truthyFilter (some "") = (none : Option String) := by decide
    have ht2 : truthyFilter none = (none : Option String) := rfl
    funext i
    simp only [matchesFilter, ht, ht2]
  rw [he]

theorem undisplayedCandidates_empty (db : DB) :
    undisplayedCandidates db (some "") = undisplayedCandidates db none := by
  unfold undisplayedCandidates
  rw [candidateImages_empty]

theorem count_undisplayed_empty (db : DB) :
    count_undisplayed_images db (some "") = count_undisplayed_images db none := by
  unfold count_undisplayed_images
  rw [undisplayedCandidates_empty]

theorem count_all_empty (db : DB) :
    count_all_images db (some "") = count_all_images db none := by
  simp [count_all_images, truthyFilter]

theorem get_random_undisplayed_empty (db : DB) (c : Nat) :
    get_random_undisplayed_image db (some "") c = get_random_undisplayed_image db none c := by
  simp only [get_random_undisplayed_image, undisplayedCandidates_empty]

theorem get_random_image_empty (db : DB) (c : Nat) :
    get_random_image db (some "") c = get_random_image db none c := by
  simp only [get_random_image, candidateImages_empty]

theorem gni_congr (s t : Scanner) (a0 b0 : Option String) (c : Nat)
    (hdb : s.db = t.db) (heff : effAlbum s.current_album a0 = effAlbum t.current_album b0) :
    (get_next_image s a0 c).1 = (get_next_image t b0 c).1 ∧
    (get_next_image s a0 c).2.db = (get_next_image t b0 c).2.db := by
  simp only [get_next_image, ← hdb, ← heff]
  by_cases h1 : count_undisplayed_images s.db (effAlbum s.current_album a0) = 0
  · by_cases h2 : count_all_images (clear_displayed_images s.db) (effAlbum s.current_album a0) = 0
    · simp [h1, h2]
    · by_cases h3 : 0 < count_undisplayed_images (clear_displayed_images s.db)
          (effAlbum s.current_album a0)
      · cases hsel : get_random_undisplayed_image (clear_displayed_images s.db)
            (effAlbum s.current_album a0) c <;> simp [h1, h2, h3, hsel]
      · cases hsel : get_random_image (clear_displayed_images s.db)
            (effAlbum s.current_album a0) c <;> simp [h1, h2, h3, hsel]
  · by_cases h3 : 0 < count_undisplayed_images s.db (effAlbum s.current_album a0)
    · cases hsel : get_random_undisplayed_image s.db (effAlbum s.current_album a0) c <;>
        simp [h1, h3, hsel]
    · cases hsel : get_random_image s.db (effAlbum s.current_album a0) c <;>
        simp [h1, h3, hsel]

theorem gni_empty_eq_none (s : Scanner) (c : Nat) :
    get_next_image s (some "") c = get_next_image s none c := by
  cases hcur : s.current_album with
  | some x =>
    have e : effAlbum s.current_album (some "") = effAlbum s.current_album none := by
      simp [effAlbum, hcur, pyTruthy]
    simp only [get_next_image, e]
  | none =>
    have e1 : effAlbum s.current_album (some "") = some "" := by
      simp [effAlbum, hcur, pyTruthy]
    have e2 : effAlbum s.current_album none = none := by
      simp [effAlbum, hcur, pyTruthy]
    simp only [get_next_image, e1, e2, count_undisplayed_empty, count_all_empty,
      get_random_undisplayed_empty, get_random_image_empty]

/-- Claim C3, counterexample to the claim as stated: with stored current
album `"A"`, calling `get_next_image` with override `"B"` does NOT update
the stored `currentAlbum` (it stays `"A"`), and the explicit clear value
`""` is NOT distinct from "not provided": it falls back to the stored album
`"A"` exactly like an absent argument. -/
theorem c3_counterexample :
    (get_next_image sC3x (some "B") 0).2.current_album = some "A" ∧
    (get_next_image sC3x (some "B") 0).1.album = "B" ∧
    (get_next_image sC3x (some "") 1).1.album = "A" ∧
    (get_next_image sC3x (some "") 1).1 = (get_next_image sC3x none 1).1 := by
  refine ⟨by decide, by decide, by decide, by decide⟩

/-- Claim C3 (amended): a truthy (non-empty) album override determines the
effective filter for that call only — the result and the database effects
are the same as if no album were stored — but `get_next_image` never writes
the stored `currentAlbum`; an empty-string override is treated exactly like
an absent one (both fall back to the stored album). -/
theorem c3_override_semantics (s : Scanner) (a0 : Option String) (c : Nat) :
    (get_next_image s a0 c).2.current_album = s.current_album ∧
    (pyTruthy a0 = true →
      (get_next_image s a0 c).1 = (get_next_image { s with current_album := none } a0 c).1 ∧
      (get_next_image s a0 c).2.db = (get_next_image { s with current_album := none } a0 c).2.db) ∧
    get_next_image s (some "") c = get_next_image s none c := by
  refine ⟨gni_current_album s a0 c, ?_, gni_empty_eq_none s c⟩
  intro h
  exact gni_congr s ({ s with current_album := none }) a0 a0 c rfl (by simp [effAlbum, h])

/-- Claim C3 witness: the amended theorem applied with the truthy override
`"B"` on a concrete state with stored album `"A"`. -/
theorem c3_witness :
    pyTruthy (some "B") = true ∧
    (get_next_image sC3w (some "B") 0).1
      = (get_next_image { sC3w with current_album := none } (some "B") 0).1 :=
  ⟨by decide, ((c3_override_semantics sC3w (some "B") 0).2.1 (by decide)).1⟩

/-- Claim C4: `set_album` with an absent or empty name clears `currentAlbum`
and returns true; a non-empty name is reduced to its last path segment and
validated against the known album names — unknown names are rejected
(returns false, state unchanged), known names are stored reduced. -/
theorem c4_set_album (s : Scanner) (nm : Option String) :
    ((nm = none ∨ nm = some "") → set_album s nm = (true, { s with current_album := none })) ∧
    (∀ n : String, nm = some n → n ≠ "" →
      (reducedName n ∉ get_all_albums s.db → set_album s nm = (false, s)) ∧
      (reducedName n ∈ get_all_albums s.db →
        set_album s nm = (true, { s with current_album := some (reducedName n) }))) := by
  constructor
  · rintro (rfl | rfl)
    · rfl
    · simp [set_album]
  · rintro n rfl hne
    constructor
    · intro hnot
      rw [reducedName] at hnot
      simp [set_album, hne, hnot]
    · intro hin
      rw [reducedName] at hin
      simp [set_album, hne, hin, reducedName]

/-- Claim C4 witness: `set_album "does-not-exist"` fails and leaves the
scanner unchanged. -/
theorem c4_witness :
    "does-not-exist" ≠ "" ∧
    reducedName "does-not-exist" ∉ get_all_albums sC4w.db ∧
    set_album sC4w (some "does-not-exist") = (false, sC4w) :=
  ⟨by decide, by decide,
   ((c4_set_album sC4w (some "does-not-exist")).2 "does-not-exist" rfl
     (by decide)).1 (by decide)⟩

/-- Claim C5, counterexample to the claim as stated: the catalog has an
album named `"child"` with one undisplayed image, yet
`get_next_image "parent/child"` returns the empty sentinel — the filter was
used verbatim (matching no album name), NOT reduced to its last path
segment, while the reduced filter `"child"` returns the image. -/
theorem c5_counterexample :
    (get_next_image sC5x (some "parent/child") 0).1 = emptyResult ∧
    (get_next_image sC5x (some "child") 0).1.relative_path = "parent/child/f1.jpg" := by
  refine ⟨by decide, by decide⟩

/-- Claim C5 (amended): `get_next_image` performs no path-segment reduction:
a filter containing a path separator is passed verbatim to the count,
reset, and sampling queries, so when no album name contains a separator the
call matches nothing — it clears the displayed marks (zero-count reset
path) and returns the empty sentinel.  Only `set_album` reduces path-style
names. -/
theorem c5_verbatim_filter (s : Scanner) (a : String) (c : Nat)
    (hslash : containsSlash a = true)
    (hnames : ∀ al ∈ s.db.albums, containsSlash al.name = false) :
    (get_next_image s (some a) c).1 = emptyResult ∧
    (get_next_image s (some a) c).2.db.displayed = [] := by
  have hne : a ≠ "" := by
    intro he
    rw [he] at hslash
    exact absurd hslash (by decide)
  have heff : effAlbum s.current_album (some a) = some a := by
    simp [effAlbum, pyTruthy, hne]
  have hcand : candidateImages s.db (some a) = [] := by
    rw [candidateImages, List.filterMap_eq_nil_iff]
    intro i _
    cases hf : s.db.albums.find? (fun al => al.id == i.album_id) with
    | none => simp
    | some al =>
      have halm : al ∈ s.db.albums := List.mem_of_find?_eq_some hf
      have hb : (al.name == a) = false := by
        rw [beq_eq_false_iff_ne]
        intro he
        have hcf := hnames al halm
        rw [he, hslash] at hcf
        cases hcf
      have hm : matchesFilter (some a) al.name = false := by
        simp [matchesFilter, truthyFilter, hne, hb]
      simp [hm]
  have hund : undisplayedCandidates s.db (some a) = [] := by
    simp [undisplayedCandidates, hcand]
  have hc0 : count_undisplayed_images s.db (some a) = 0 := by
    simp [count_undisplayed_images, hund]
  have hcall : count_all_images (clear_displayed_images s.db) (some a) = 0 := by
    have h1 : candidateImages (clear_displayed_images s.db) (some a) = [] := by
      rw [candidateImages_clear, hcand]
    have ht : truthyFilter (some a) = some a := by simp [truthyFilter, hne]
    simp [count_all_images, ht, h1]
  have hgoal : get_next_image s (some a) c
      = (emptyResult,
         { s with db := clear_displayed_images s.db, current_image := some emptyResult }) := by
    simp [get_next_image, heff, hc0, hcall]
  rw [hgoal]
  exact ⟨rfl, rfl⟩

/-- Claim C7: `add_album` keyed on `(name, source_path)` and `add_image`
keyed on `(filename, album_id)` are idempotent upserts: a second identical
call returns the same id, leaves the database unchanged, and exactly one
row with that key exists (given the UNIQUE constraint held beforehand). -/
theorem c7_idempotent_upsert (db : DB) (n d src fn : String) (aid : Int)
    (hkeyA : (db.albums.filter fun a => a.name == n && a.source_path == src).length ≤ 1)
    (hkeyI : (db.images.filter fun i => i.filename == fn && i.album_id == aid).length ≤ 1) :
    ((add_album (add_album db n d src).2 n d src).1 = (add_album db n d src).1 ∧
     (add_album (add_album db n d src).2 n d src).2 = (add_album db n d src).2 ∧
     ((add_album db n d src).2.albums.filter
        fun a => a.name == n && a.source_path == src).length = 1) ∧
    ((add_image (add_image db fn aid).2 fn aid).1 = (add_image db fn aid).1 ∧
     (add_image (add_image db fn aid).2 fn aid).2 = (add_image db fn aid).2 ∧
     ((add_image db fn aid).2.images.filter
        fun i => i.filename == fn && i.album_id == aid).length = 1) := by
  constructor
  · cases hf : db.albums.find? (fun a => a.name == n && a.source_path == src) with
    | some arow =>
      have hmemA : arow ∈ db.albums := List.mem_of_find?_eq_some hf
      have hpa := List.find?_some hf
      have hmemF : arow ∈ db.albums.filter (fun a => a.name == n && a.source_path == src) :=
        List.mem_filter.mpr ⟨hmemA, hpa⟩
      have hpos : 0 < (db.albums.filter
          (fun a => a.name == n && a.source_path == src)).length :=
        List.length_pos.mpr (fun he => by rw [he] at hmemF; cases hmemF)
      refine ⟨by simp [add_album, hf], by simp [add_album, hf], ?_⟩
      have h2 : (add_album db n d src).2 = db := by simp [add_album, hf]
      rw [h2]
      omega
    | none =>
      have hfind2 : List.find? (fun a => a.name == n && a.source_path == src)
          (db.albums ++ [(⟨db.nextAlbumId, n, d, src⟩ : AlbumRow)])
          = some (⟨db.nextAlbumId, n, d, src⟩ : AlbumRow) := by
        rw [List.find?_append, hf]
        simp
      have hnil : db.albums.filter (fun a => a.name == n && a.source_path == src) = [] := by
        rw [List.filter_eq_nil_iff]
        intro x hx
        exact List.find?_eq_none.mp hf x hx
      refine ⟨?_, ?_, ?_⟩ <;>
        simp [add_album, hf, hfind2, List.filter_append, hnil]
  · cases hf : db.images.find? (fun i => i.filename == fn && i.album_id == aid) with
    | some irow =>
      have hmemA : irow ∈ db.images := List.mem_of_find?_eq_some hf
      have hpa := List.find?_some hf
      have hmemF : irow ∈ db.images.filter (fun i => i.filename == fn && i.album_id == aid) :=
        List.mem_filter.mpr ⟨hmemA, hpa⟩
      have hpos : 0 < (db.images.filter
          (fun i => i.filename == fn && i.album_id == aid)).length :=
        List.length_pos.mpr (fun he => by rw [he] at hmemF; cases hmemF)
      refine ⟨by simp [add_image, hf], by simp [add_image, hf], ?_⟩
      have h2 : (add_image db fn aid).2 = db := by simp [add_image, hf]
      rw [h2]
      omega
    | none =>
      have hfind2 : List.find? (fun i => i.filename == fn && i.album_id == aid)
          (db.images ++ [(⟨db.nextImageId, fn, aid⟩ : ImageRow)])
          = some (⟨db.nextImageId, fn, aid⟩ : ImageRow) := by
        rw [List.find?_append, hf]
        simp
      have hnil : db.images.filter (fun i => i.filename == fn && i.album_id == aid) = [] := by
        rw [List.filter_eq_nil_iff]
        intro x hx
        exact List.find?_eq_none.mp hf x hx
      refine ⟨?_, ?_, ?_⟩ <;>
        simp [add_image, hf, hfind2, List.filter_append, hnil]

/-- Claim C7 witness: the theorem applied to a fresh database. -/
theorem c7_witness :
    ((db0.albums.filter fun a => a.name == "A" && a.source_path == "R").length ≤ 1) ∧
    ((db0.images.filter fun i => i.filename == "f.jpg" && i.album_id == 1).length ≤ 1) ∧
    (add_album (add_album db0 "A" "" "R").2 "A" "" "R").1 = (add_album db0 "A" "" "R").1 ∧
    (add_album (add_album db0 "A" "" "R").2 "A" "" "R").2 = (add_album db0 "A" "" "R").2 :=
  ⟨by decide, by decide,
   ((c7_idempotent_upsert db0 "A" "" "R" "f.jpg" 1 (by decide) (by decide)).1).1,
   ((c7_idempotent_upsert db0 "A" "" "R" "f.jpg" 1 (by decide) (by decide)).1).2.1⟩

/-- Claim C8 (code bug evaluation): the `try/except sqlite3.Error/finally`
boundary of `add_album` converts a post-connection query failure to the
`-1` no-op result as the claim states, but when `_get_connection` itself
fails — `sqlite3.connect` raising `sqlite3.Error`, or `os.makedirs` raising
`OSError` — the local `conn` is never bound and the `finally` clause's
`if conn:` raises `UnboundLocalError`, which propagates to the caller,
contradicting "no Catalog Store operation propagates an exception". -/
theorem c8_storage_failure_boundary :
    add_album_run db0 "A" "" "R" ConnBehavior.ok
      = PyOutcome.ret (add_album db0 "A" "" "R") ∧
    add_album_run db0 "A" "" "R" ConnBehavior.queryFails = PyOutcome.ret (-1, db0) ∧
    add_album_run db0 "A" "" "R" ConnBehavior.connectFails
      = PyOutcome.exc PyExc.unboundLocal ∧
    add_album_run db0 "A" "" "R" ConnBehavior.makedirsFails
      = PyOutcome.exc PyExc.unboundLocal :=
  ⟨rfl, rfl, rfl, rfl⟩

/-- Claim C9 (code bug evaluation): `mark_image_displayed` replaces rather
than duplicates (marking the same image twice leaves one mark), but the
declared FOREIGN KEY is never enforced because the connection never enables
`PRAGMA foreign_keys`: marking image id 7 on a catalog with NO images
succeeds and inserts an orphan displayed mark, violating "every displayed
mark references an existing image row". -/
theorem c9_displayed_mark_fk :
    (mark_image_displayed db0 7).1 = true ∧
    ((mark_image_displayed db0 7).2.displayed.map fun d => d.image_id) = [7] ∧
    (mark_image_displayed db0 7).2.images = [] ∧
    ((mark_image_displayed (mark_image_displayed dbC9 1).2 1).2.displayed.map
      fun d => d.image_id) = [1] :=
  ⟨rfl, rfl, rfl, rfl⟩

theorem dbLe_refl (db : DB) : dbLe db db := ⟨fun _ h => h, fun _ h => h⟩

theorem dbLe_trans {d1 d2 d3 : DB} (h12 : dbLe d1 d2) (h23 : dbLe d2 d3) : dbLe d1 d3 :=
  ⟨fun a ha => h23.1 a (h12.1 a ha), fun i hi => h23.2 i (h12.2 i hi)⟩

theorem add_album_dbLe (db : DB) (n d src : String) : dbLe db (add_album db n d src).2 := by
  cases hf : db.albums.find? (fun a => a.name == n && a.source_path == src) with
  | some arow =>
    have h2 : (add_album db n d src).2 = db := by simp [add_album, hf]
    rw [h2]
    exact dbLe_refl db
  | none =>
    have h2 : (add_album db n d src).2.albums
        = db.albums ++ [(⟨db.nextAlbumId, n, d, src⟩ : AlbumRow)] := by
      simp [add_album, hf]
    have h3 : (add_album db n d src).2.images = db.images := by
      simp [add_album, hf]
    exact ⟨fun a ha => h2 ▸ List.mem_append_left _ ha, fun i hi => h3 ▸ hi⟩

theorem add_image_albums (db : DB) (fn : String) (aid : Int) :
    (add_image db fn aid).2.albums = db.albums := by
  cases hf : db.images.find? (fun i => i.filename == fn && i.album_id == aid) <;>
    simp [add_image, hf]

theorem add_image_nextAlbumId (db : DB) (fn : String) (aid : Int) :
    (add_image db fn aid).2.nextAlbumId = db.nextAlbumId := by
  cases hf : db.images.find? (fun i => i.filename == fn && i.album_id == aid) <;>
    simp [add_image, hf]

theorem add_image_dbLe (db : DB) (fn : String) (aid : Int) :
    dbLe db (add_image db fn aid).2 := by
  cases hf : db.images.find? (fun i => i.filename == fn && i.album_id == aid) with
  | some irow =>
    have h2 : (add_image db fn aid).2 = db := by simp [add_image, hf]
    rw [h2]
    exact dbLe_refl db
  | none =>
    have h2 : (add_image db fn aid).2.images
        = db.images ++ [(⟨db.nextImageId, fn, aid⟩ : ImageRow)] := by
      simp [add_image, hf]
    refine ⟨fun a ha => ?_, fun i hi => h2 ▸ List.mem_append_left _ hi⟩
    rw [add_image_albums]
    exact ha

theorem processFile_dbLe (db : DB) (rootPath : String) (comps : List String) :
    dbLe db (processFile db rootPath comps) := by
  simp only [processFile]
  split
  · exact dbLe_trans (add_album_dbLe db _ _ _) (add_image_dbLe _ _ _)
  · exact add_album_dbLe db _ _ _

theorem scanEntry_dbLe (exts : List String) (rootPath : String) (db : DB) (e : FsEntry) :
    dbLe db (scanEntry exts rootPath db e) := by
  unfold scanEntry
  split
  · exact processFile_dbLe db rootPath e.comps
  · exact dbLe_refl db

theorem foldl_dbLe {α : Type} (step : DB → α → DB)
    (hstep : ∀ (db : DB) (x : α), dbLe db (step db x)) :
    ∀ (l : List α) (db : DB), dbLe db (l.foldl step db) := by
  intro l
  induction l with
  | nil => intro db; exact dbLe_refl db
  | cons x t ih => intro db; exact dbLe_trans (hstep db x) (ih (step db x))

theorem scanRoot_dbLe (exts : List String) (db : DB) (r : MediaRoot) :
    dbLe db (scanRoot exts db r) := by
  unfold scanRoot
  split
  · exact foldl_dbLe _ (scanEntry_dbLe exts r.path) r.files db
  · exact dbLe_refl db

theorem add_album_ok (db : DB) (n d src : String) (h : dbIdsOk db) :
    dbIdsOk (add_album db n d src).2 := by
  cases hf : db.albums.find? (fun a => a.name == n && a.source_path == src) with
  | some arow =>
    have h2 : (add_album db n d src).2 = db := by simp [add_album, hf]
    rw [h2]
    exact h
  | none =>
    have h2 : (add_album db n d src).2.albums
        = db.albums ++ [(⟨db.nextAlbumId, n, d, src⟩ : AlbumRow)] := by
      simp [add_album, hf]
    have h3 : (add_album db n d src).2.nextAlbumId = db.nextAlbumId + 1 := by
      simp [add_album, hf]
    constructor
    · rw [h3]
      have := h.1
      omega
    · rw [h2]
      intro a ha
      rcases List.mem_append.mp ha with hx | hx
      · exact h.2 a hx
      · rw [List.mem_singleton] at hx
        rw [hx]
        exact h.1

theorem add_image_ok (db : DB) (fn : String) (aid : Int) (h : dbIdsOk db) :
    dbIdsOk (add_image db fn aid).2 := by
  constructor
  · rw [add_image_nextAlbumId]
    exact h.1
  · rw [add_image_albums]
    exact h.2

theorem processFile_ok (db : DB) (rootPath : String) (comps : List String)
    (h : dbIdsOk db) : dbIdsOk (processFile db rootPath comps) := by
  simp only [processFile]
  split
  · exact add_image_ok _ _ _ (add_album_ok db _ _ _ h)
  · exact add_album_ok db _ _ _ h

theorem scanEntry_ok (exts : List String) (rootPath : String) (db : DB) (e : FsEntry)
    (h : dbIdsOk db) : dbIdsOk (scanEntry exts rootPath db e) := by
  unfold scanEntry
  split
  · exact processFile_ok db rootPath e.comps h
  · exact h

theorem foldl_ok {α : Type} (step : DB → α → DB)
    (hstep : ∀ (db : DB) (x : α), dbIdsOk db → dbIdsOk (step db x)) :
    ∀ (l : List α) (db : DB), dbIdsOk db → dbIdsOk (l.foldl step db) := by
  intro l
  induction l with
  | nil => intro db h; exact h
  | cons x t ih => intro db h; exact ih (step db x) (hstep db x h)

theorem scanRoot_ok (exts : List String) (db : DB) (r : MediaRoot)
    (h : dbIdsOk db) : dbIdsOk (scanRoot exts db r) := by
  unfold scanRoot
  split
  · exact foldl_ok _ (scanEntry_ok exts r.path) r.files db h
  · exact h

theorem srcAlbumName_eq (rootPath : String) (comps : List String) :
    srcAlbumName rootPath comps = claimAlbumName comps := by
  by_cases hp : comps.dropLast = [] <;>
    simp [srcAlbumName, claimAlbumName, hp, List.isEmpty_iff]

theorem srcDirPath_eq (comps : List String)
    (hdp : String.intercalate "/" comps.dropLast ≠ ".") :
    srcDirPath comps = claimDirPath comps := by
  by_cases hp : comps.dropLast = [] <;>
    simp [srcDirPath, claimDirPath, hp, hdp, List.isEmpty_iff]

theorem add_album_spec (db : DB) (n d src : String) (hok : dbIdsOk db) :
    ∃ a ∈ (add_album db n d src).2.albums,
      a.id = (add_album db n d src).1 ∧ a.name = n ∧ a.source_path = src ∧
      0 ≤ (add_album db n d src).1 := by
  cases hf : db.albums.find? (fun a => a.name == n && a.source_path == src) with
  | some arow =>
    have h12 : add_album db n d src = (arow.id, db) := by simp [add_album, hf]
    have hmem : arow ∈ db.albums := List.mem_of_find?_eq_some hf
    have hpa := List.find?_some hf
    simp only [Bool.and_eq_true, beq_iff_eq] at hpa
    rw [h12]
    exact ⟨arow, hmem, rfl, hpa.1, hpa.2, hok.2 arow hmem⟩
  | none =>
    have h12 : add_album db n d src
        = (db.nextAlbumId, { db with
            albums := db.albums ++ [(⟨db.nextAlbumId, n, d, src⟩ : AlbumRow)],
            nextAlbumId := db.nextAlbumId + 1 }) := by
      simp [add_album, hf]
    rw [h12]
    refine ⟨⟨db.nextAlbumId, n, d, src⟩, ?_, rfl, rfl, rfl, hok.1⟩
    exact List.mem_append_right _ (List.mem_singleton.mpr rfl)

theorem add_image_spec (db : DB) (fn : String) (aid : Int) :
    ∃ i ∈ (add_image db fn aid).2.images, i.filename = fn ∧ i.album_id = aid := by
  cases hf : db.images.find? (fun i => i.filename == fn && i.album_id == aid) with
  | some irow =>
    have h12 : add_image db fn aid = (irow.id, db) := by simp [add_image, hf]
    have hmem : irow ∈ db.images := List.mem_of_find?_eq_some hf
    have hpa := List.find?_some hf
    simp only [Bool.and_eq_true, beq_iff_eq] at hpa
    rw [h12]
    exact ⟨irow, hmem, hpa.1, hpa.2⟩
  | none =>
    have h12 : add_image db fn aid
        = (db.nextImageId, { db with
            images := db.images ++ [(⟨db.nextImageId, fn, aid⟩ : ImageRow)],
            nextImageId := db.nextImageId + 1 }) := by
      simp [add_image, hf]
    rw [h12]
    refine ⟨⟨db.nextImageId, fn, aid⟩, ?_, rfl, rfl⟩
    exact List.mem_append_right _ (List.mem_singleton.mpr rfl)

theorem processFile_spec (db : DB) (rootPath : String) (comps : List String)
    (hok : dbIdsOk db) :
    ∃ a ∈ (processFile db rootPath comps).albums,
      ∃ i ∈ (processFile db rootPath comps).images,
        i.album_id = a.id ∧ i.filename = comps.getLastD "" ∧
        a.name = claimAlbumName comps ∧ a.source_path = rootPath := by
  obtain ⟨a, hamem, haid, haname, hasrc, hge⟩ :=
    add_album_spec db (srcAlbumName rootPath comps) (srcDirPath comps) rootPath hok
  have hpf : processFile db rootPath comps
      = (add_image
          (add_album db (srcAlbumName rootPath comps) (srcDirPath comps) rootPath).2
          (comps.getLastD "")
          (add_album db (srcAlbumName rootPath comps) (srcDirPath comps) rootPath).1).2 := by
    simp only [processFile]
    rw [if_pos hge]
  obtain ⟨i, himem, hif, hia⟩ :=
    add_image_spec
      (add_album db (srcAlbumName rootPath comps) (srcDirPath comps) rootPath).2
      (comps.getLastD "")
      (add_album db (srcAlbumName rootPath comps) (srcDirPath comps) rootPath).1
  rw [hpf]
  refine ⟨a, ?_, i, himem, ?_, hif, ?_, hasrc⟩
  · rw [add_image_albums]
    exact hamem
  · rw [hia, haid]
  · rw [haname, srcAlbumName_eq]

theorem processFile_new (db : DB) (rootPath : String) (comps : List String)
    (hdp : String.intercalate "/" comps.dropLast ≠ ".")
    (hnew : db.albums.find?
      (fun a => a.name == claimAlbumName comps && a.source_path == rootPath) = none) :
    (⟨db.nextAlbumId, claimAlbumName comps, claimDirPath comps, rootPath⟩ : AlbumRow)
      ∈ (processFile db rootPath comps).albums := by
  have h1 : srcAlbumName rootPath comps = claimAlbumName comps := srcAlbumName_eq rootPath comps
  have h2 : srcDirPath comps = claimDirPath comps := srcDirPath_eq comps hdp
  have hpa : (processFile db rootPath comps).albums
      = (add_album db (srcAlbumName rootPath comps) (srcDirPath comps) rootPath).2.albums := by
    simp only [processFile]
    split
    · rw [add_image_albums]
    · rfl
  have hadd : (add_album db (srcAlbumName rootPath comps) (srcDirPath comps) rootPath).2.albums
      = db.albums ++
        [(⟨db.nextAlbumId, claimAlbumName comps, claimDirPath comps, rootPath⟩ : AlbumRow)] := by
    rw [h1, h2]
    simp [add_album, hnew]
  rw [hpa, hadd]
  exact List.mem_append_right _ (List.mem_singleton.mpr rfl)

/-- Claim C6, counterexample to the claim as stated: scanning one root `"R"`
containing `x/A/f1.jpg` and `y/A/f2.jpg` catalogs BOTH images under the
single album row `(1, "A", "x/A", "R")` — `f2.jpg`'s album keeps the
directory_path of the first discovery (`"x/A"`), and no album row with
directory_path `"y/A"` exists, contradicting "directory_path is the parent
directory's path relative to the root" for `f2.jpg`. -/
theorem c6_counterexample :
    (scan_media sC6x).db.albums = [⟨1, "A", "x/A", "R"⟩] ∧
    (scan_media sC6x).db.images = [⟨1, "f1.jpg", 1⟩, ⟨2, "f2.jpg", 1⟩] ∧
    ¬ (∃ a ∈ (scan_media sC6x).db.albums, ∃ i ∈ (scan_media sC6x).db.images,
        i.album_id = a.id ∧ i.filename = "f2.jpg" ∧ a.directory_path = "y/A") := by
  refine ⟨by decide, by decide, by decide⟩

/-- Claim C6 (amended): every file accepted by a scan is cataloged under an
album named after its immediate parent directory's base name regardless of
nesting depth (`"Root"` when the parent is the configured root itself), with
`source_path` the configured root; the claimed directory_path (parent path
relative to the root, `""` at the root) is stored only when the
`(name, source_root)` album row is first created for this file — an already
existing same-key row keeps its original directory_path and the image is
cataloged under it (`c6_counterexample`). -/
theorem c6_album_derivation (s : Scanner) (r : MediaRoot) (e : FsEntry)
    (hr : r ∈ s.media_paths) (hpres : r.present = true) (he : e ∈ r.files)
    (hacc : acceptsFile e s.allowed_extensions = true)
    (hok : dbIdsOk s.db) :
    (∃ a ∈ (scan_media s).db.albums, ∃ i ∈ (scan_media s).db.images,
        i.album_id = a.id ∧ i.filename = e.comps.getLastD "" ∧
        a.name = claimAlbumName e.comps ∧ a.source_path = r.path) ∧
    (String.intercalate "/" e.comps.dropLast ≠ "." →
      ∀ db : DB,
        db.albums.find?
          (fun a => a.name == claimAlbumName e.comps && a.source_path == r.path) = none →
        (⟨db.nextAlbumId, claimAlbumName e.comps, claimDirPath e.comps, r.path⟩ : AlbumRow)
          ∈ (processFile db r.path e.comps).albums) := by
  constructor
  · obtain ⟨l1, l2, hsplit⟩ := List.append_of_mem hr
    obtain ⟨f1, f2, hfsplit⟩ := List.append_of_mem he
    have hscan : (scan_media s).db
        = l2.foldl (scanRoot s.allowed_extensions)
            (scanRoot s.allowed_extensions
              (l1.foldl (scanRoot s.allowed_extensions) s.db) r) := by
      show s.media_paths.foldl (scanRoot s.allowed_extensions) s.db = _
      rw [hsplit, List.foldl_append, List.foldl_cons]
    have hok1 : dbIdsOk (l1.foldl (scanRoot s.allowed_extensions) s.db) :=
      foldl_ok _ (scanRoot_ok s.allowed_extensions) l1 s.db hok
    have hroot : scanRoot s.allowed_extensions
          (l1.foldl (scanRoot s.allowed_extensions) s.db) r
        = f2.foldl (scanEntry s.allowed_extensions r.path)
            (scanEntry s.allowed_extensions r.path
              (f1.foldl (scanEntry s.allowed_extensions r.path)
                (l1.foldl (scanRoot s.allowed_extensions) s.db)) e) := by
      unfold scanRoot
      rw [if_pos hpres, hfsplit, List.foldl_append, List.foldl_cons]
    have hok2 : dbIdsOk (f1.foldl (scanEntry s.allowed_extensions r.path)
        (l1.foldl (scanRoot s.allowed_extensions) s.db)) :=
      foldl_ok _ (scanEntry_ok s.allowed_extensions r.path) f1 _ hok1
    have hentry : scanEntry s.allowed_extensions r.path
          (f1.foldl (scanEntry s.allowed_extensions r.path)
            (l1.foldl (scanRoot s.allowed_extensions) s.db)) e
        = processFile (f1.foldl (scanEntry s.allowed_extensions r.path)
            (l1.foldl (scanRoot s.allowed_extensions) s.db)) r.path e.comps := by
      unfold scanEntry
      rw [if_pos hacc]
    obtain ⟨a, hamem, i, himem, hlink, hfn, hnm, hsrc⟩ :=
      processFile_spec (f1.foldl (scanEntry s.allowed_extensions r.path)
        (l1.foldl (scanRoot s.allowed_extensions) s.db)) r.path e.comps hok2
    have hrest : dbLe (processFile (f1.foldl (scanEntry s.allowed_extensions r.path)
          (l1.foldl (scanRoot s.allowed_extensions) s.db)) r.path e.comps)
        (scan_media s).db := by
      rw [hscan, hroot, hentry]
      exact dbLe_trans
        (foldl_dbLe _ (scanEntry_dbLe s.allowed_extensions r.path) f2 _)
        (foldl_dbLe _ (scanRoot_dbLe s.allowed_extensions) l2 _)
    exact ⟨a, hrest.1 a hamem, i, hrest.2 i himem, hlink, hfn, hnm, hsrc⟩
  · intro hdp db hnew
    exact processFile_new db r.path e.comps hdp hnew

/-- Claim C6 witness: the amended theorem applied to a concrete scan of
`R/B/pic.jpg`. -/
theorem c6_witness :
    (⟨"R", true, [⟨["B", "pic.jpg"], true⟩, ⟨["top.jpg"], true⟩]⟩ : MediaRoot)
      ∈ sC6w.media_paths ∧
    acceptsFile ⟨["B", "pic.jpg"], true⟩ sC6w.allowed_extensions = true ∧
    (∃ a ∈ (scan_media sC6w).db.albums, ∃ i ∈ (scan_media sC6w).db.images,
        i.album_id = a.id ∧ i.filename = (["B", "pic.jpg"].getLastD "") ∧
        a.name = claimAlbumName ["B", "pic.jpg"] ∧ a.source_path = "R") :=
  ⟨by decide, by decide,
   (c6_album_derivation sC6w ⟨"R", true, [⟨["B", "pic.jpg"], true⟩, ⟨["top.jpg"], true⟩]⟩
     ⟨["B", "pic.jpg"], true⟩ (by decide) (by decide) (by decide) (by decide)
     ⟨by decide, by decide⟩).1⟩

/-- Claim C5 witness: the amended theorem applied to the concrete
`"parent/child"` filter over a catalog whose only album is `"child"`. -/
theorem c5_witness :
    containsSlash "parent/child" = true ∧
    (∀ al ∈ sC5w.db.albums, containsSlash al.name = false) ∧
    (get_next_image sC5w (some "parent/child") 0).1 = emptyResult :=
  ⟨by decide, by decide,
   (c5_verbatim_filter sC5w "parent/child" 0 (by decide) (by decide)).1⟩


end PF
